import Mathlib

/-!
# Verification of the offload visualizer (src/visualizer/offload_visualizer.c)

A shallow embedding of the per-session visualizer state machine from
`offload_visualizer.c`, together with proofs about the claims of the
specification.  Machine integers are modelled as `Nat`/`Int` with explicit
reductions modulo 2^32 where the C code performs `uint32_t`/`int32_t`
arithmetic.  The session's capture ring buffer is modelled as a total
function `Nat → Nat` over byte values; the client's reply buffer is a
`List Nat` whose length plays the role of `*replySize`.
-/

namespace OffloadVisualizer

/-! ## Constants from the source and from the external effect headers -/

/-- `EFFECT_STATE_UNINITIALIZED` -/
def EFFECT_STATE_UNINITIALIZED : Nat := 0
/-- `EFFECT_STATE_INITIALIZED` -/
def EFFECT_STATE_INITIALIZED : Nat := 1
/-- `EFFECT_STATE_ACTIVE` -/
def EFFECT_STATE_ACTIVE : Nat := 2

/-- `CAPTURE_BUF_SIZE` (64 KiB ring buffer). -/
def CAPTURE_BUF_SIZE : Nat := 65536

/-- `MAX_STALL_TIME_MS` -/
def MAX_STALL_TIME_MS : Nat := 1000

/-- `VISUALIZER_PARAM_CAPTURE_SIZE` from the external `effect_visualizer.h`. -/
def VISUALIZER_PARAM_CAPTURE_SIZE : Nat := 0
/-- `VISUALIZER_PARAM_SCALING_MODE` from the external `effect_visualizer.h`. -/
def VISUALIZER_PARAM_SCALING_MODE : Nat := 1
/-- `VISUALIZER_PARAM_LATENCY` from the external `effect_visualizer.h`. -/
def VISUALIZER_PARAM_LATENCY : Nat := 2

/-- `VISUALIZER_SCALING_MODE_NORMALIZED` from the external header. -/
def VISUALIZER_SCALING_MODE_NORMALIZED : Nat := 0
/-- `VISUALIZER_SCALING_MODE_AS_PLAYED` from the external header. -/
def VISUALIZER_SCALING_MODE_AS_PLAYED : Nat := 1

/-! ## Machine-integer helpers -/

/-- Reduction into the `uint32_t` range. -/
def u32 (n : Nat) : Nat := n % 4294967296

/-- Reinterpret a `uint32_t` value as an `int32_t` (two's complement). -/
def toInt32 (n : Nat) : Int :=
  if u32 n < 2147483648 then (u32 n : Int) else (u32 n : Int) - 4294967296

/-- C conversion of a signed integer value to `uint32_t` (mod 2^32). -/
def i2u32 (i : Int) : Nat := (i % 4294967296).toNat

/-- `uint32_t` subtraction `a - b` with wraparound. -/
def u32sub (a b : Nat) : Nat := (u32 a + (4294967296 - u32 b)) % 4294967296

theorem u32_small {n : Nat} (h : n < 4294967296) : u32 n = n :=
  Nat.mod_eq_of_lt h

theorem u32_lt (n : Nat) : u32 n < 4294967296 :=
  Nat.mod_lt _ (by norm_num)

theorem toInt32_small {n : Nat} (h : n < 2147483648) : toInt32 n = n := by
  unfold toInt32
  rw [u32_small (lt_trans h (by norm_num))]
  exact if_pos h

theorem i2u32_ofNat {n : Nat} (h : n < 4294967296) : i2u32 (n : Int) = n := by
  unfold i2u32
  rw [Int.emod_eq_of_lt (by positivity) (by exact_mod_cast h)]
  exact Int.toNat_ofNat n

/-! ## GainEstimator (`visualizer_process`, lines 627–652) -/

/-- Fuel-bounded bit length of a natural number (number of binary digits). -/
def bitLenAux : Nat → Nat → Nat
  | 0, _ => 0
  | fuel + 1, n => if n = 0 then 0 else bitLenAux fuel (n / 2) + 1

/-- `__builtin_clz` on a 32-bit value (with `clz 0` modelled as 32, which is
what the surrounding minimum-tracking loop effectively assumes). -/
def clz32 (n : Nat) : Nat := 32 - bitLenAux 32 n

/-- The sample preprocessing `if (smp < 0) smp = -smp - 1;` of line 635. -/
def sampleAbs (smp : Int) : Int := if smp < 0 then -smp - 1 else smp

/-- Leading-zero count used by the normalized-mode scan (lines 634–637). -/
def clzOfSample (smp : Int) : Nat := clz32 (sampleAbs smp).toNat

/-- The minimum-tracking loop of lines 630–638: `shift` starts at 32 and is
lowered to each sample's leading-zero count. -/
def minClz (l : List Int) : Nat :=
  l.foldl (fun acc s => min acc (clzOfSample s)) 32

/-- Lines 630–648: normalized-mode shift derivation
(`shift = 25 - minclz`, floor at 3, then `shift++`). -/
def normalizedShift (l : List Int) : Int :=
  let m := minClz l
  let sh : Int := 25 - (m : Int)
  let sh := if sh < 3 then 3 else sh
  sh + 1

/-- Lines 627–652: the computed shift; `VISUALIZER_SCALING_MODE_AS_PLAYED`
(and anything else, after the `assert`) yields the constant 9. -/
def computeShift (mode : Nat) (l : List Int) : Int :=
  if mode = VISUALIZER_SCALING_MODE_NORMALIZED then normalizedShift l else 9

/-- Peak amplitude of a sample block: the maximum absolute sample value. -/
def peakAbs : List Int → Int
  | [] => 0
  | x :: xs => max |x| (peakAbs xs)

/-! ## Session state (`visualizer_context_t` plus the relevant
`effect_context_t` fields) -/

/-- The per-session state: the `effect_context_t` fields `state`,
`offload_enabled` and `config.inputCfg.samplingRate`, and the
`visualizer_context_t` fields.  `buffer_update_set` models
`buffer_update_time.tv_sec != 0`; the elapsed time since the last update is
supplied externally at each query.  `capture_buf` is the 64 KiB ring buffer
as a total byte-valued function (only indices `< CAPTURE_BUF_SIZE` are ever
written). -/
structure VisuState where
  state : Nat
  offload_enabled : Bool
  samplingRate : Nat
  capture_idx : Nat
  capture_size : Nat
  scaling_mode : Nat
  last_capture_idx : Nat
  latency : Nat
  buffer_update_set : Bool
  capture_buf : Nat → Nat

/-! ## `visualizer_process` (lines 608–683) -/

/-- An `audio_buffer_t` with 16-bit stereo interleaved samples; a null
buffer (or null `raw` pointer) is modelled by `Option` at the call site. -/
structure AudioBuffer where
  frameCount : Nat
  s16 : List Int

/-- The interleaved samples scanned by the gain loop:
`inBuffer->s16[i]` for `i < frameCount * 2`. -/
def blockSamples (ib : AudioBuffer) : List Int :=
  (List.range (2 * ib.frameCount)).map fun i => ib.s16.getD i 0

/-- The ring-buffer write loop of lines 654–667: for each frame, wrap the
cursor at `CAPTURE_BUF_SIZE`, sum left and right, arithmetic-right-shift
(floor division by `2^shift`), truncate to the low byte (`(uint8_t)smp`),
XOR with `0x80`, and store at the cursor.  Returns the updated buffer and
the final cursor. -/
def writeFrames (sam : Nat → Int) (shift : Nat) :
    (Nat → Nat) → Nat → Nat → Nat → ((Nat → Nat) × Nat)
  | buf, capt, _, 0 => (buf, capt)
  | buf, capt, inIdx, r + 1 =>
    let c := if capt ≥ CAPTURE_BUF_SIZE then 0 else capt
    let smp := sam (2 * inIdx) + sam (2 * inIdx + 1)
    let v := (((Int.fdiv smp (2 ^ shift)).emod 256).toNat) ^^^ 128
    writeFrames sam shift (fun j => if j = c then v else buf j) (c + 1) (inIdx + 1) r

/-- `visualizer_process`.  `registered` models `effect_exists(context)`;
`clock_ok` models `clock_gettime` succeeding (on failure the timestamp is
marked unset, line 674).  Returns the status (`0`, `-EINVAL = -22`, or
`-ENODATA = -61`) and the updated session state. -/
def visualizer_process (registered : Bool) (s : VisuState)
    (inB outB : Option AudioBuffer) (clock_ok : Bool) : Int × VisuState :=
  if registered = false then (-22, s)
  else
    match inB, outB with
    | some ib, some ob =>
      if ib.frameCount ≠ ob.frameCount ∨ ib.frameCount = 0 then (-22, s)
      else
        let sam : Nat → Int := fun i => ib.s16.getD i 0
        let shift := computeShift s.scaling_mode (blockSamples ib)
        let w := writeFrames sam shift.toNat s.capture_buf s.capture_idx 0 ib.frameCount
        let s' := { s with capture_buf := w.1, capture_idx := w.2,
                           buffer_update_set := clock_ok }
        if s.state ≠ EFFECT_STATE_ACTIVE then (-61, s') else (0, s')
    | _, _ => (-22, s)

/-! ## `visualizer_set_parameter` (lines 580–605) -/

/-- An `effect_param_t` whose data area holds one `uint32_t` parameter id
followed by one `uint32_t` value. -/
structure EffectParam where
  psize : Nat
  vsize : Nat
  paramId : Nat
  value : Nat

/-- `visualizer_set_parameter`: rejects mismatched encodings, stores the
capture size or scaling mode unconditionally, and accepts-but-ignores the
latency parameter. -/
def visualizer_set_parameter (s : VisuState) (p : EffectParam) : Int × VisuState :=
  if p.psize ≠ 4 ∨ p.vsize ≠ 4 then (-22, s)
  else if p.paramId = VISUALIZER_PARAM_CAPTURE_SIZE then
    (0, { s with capture_size := p.value })
  else if p.paramId = VISUALIZER_PARAM_SCALING_MODE then
    (0, { s with scaling_mode := p.value })
  else if p.paramId = VISUALIZER_PARAM_LATENCY then (0, s)
  else (-22, s)

/-! ## `visualizer_command`, `VISUALIZER_CMD_CAPTURE` case (lines 685–761) -/

/-- Read `len` bytes from the ring buffer starting at (possibly negative,
pointer-arithmetic) address `start`. -/
def readBuf (buf : Nat → Nat) (start : Int) (len : Nat) : List Nat :=
  (List.range len).map fun (i : Nat) => buf (start + (i : Int)).toNat

/-- `memcpy(dst + off, src, src.length)` restricted to the modelled reply
window: bytes outside `dst`'s extent are dropped. -/
def memcpyAt (dst : List Nat) (off : Nat) (src : List Nat) : List Nat :=
  (List.range dst.length).map fun i =>
    if off ≤ i ∧ i < off + src.length then src.getD (i - off) 0 else dst.getD i 0

/-- `memset(dst + off, v, n)` restricted to the modelled reply window. -/
def memsetAt (dst : List Nat) (off v n : Nat) : List Nat :=
  (List.range dst.length).map fun i =>
    if off ≤ i ∧ i < off + n then v else dst.getD i 0

/-- Lines 702–718: the effective latency in ms.  `latency_ms` starts as the
stored per-session latency reinterpreted as `int32_t`; when the timestamp is
set and the clock succeeds, the elapsed ms (`delta_ms`, a `uint32_t`) is
subtracted with C's mixed signed/unsigned arithmetic and the result clamped
at 0. -/
def visu_latency_ms (s : VisuState) (clock_ok : Bool) (elapsed : Nat) : Int :=
  let l0 : Int := toInt32 (u32 s.latency)
  if s.buffer_update_set && clock_ok then
    let lm := toInt32 (u32sub (i2u32 l0) (u32 elapsed))
    if lm < 0 then 0 else lm
  else l0

/-- Line 719: `delta_smp = samplingRate * latency_ms / 1000` in `uint32_t`
arithmetic. -/
def visu_delta_smp (s : VisuState) (clock_ok : Bool) (elapsed : Nat) : Nat :=
  u32 (u32 s.samplingRate * i2u32 (visu_latency_ms s clock_ok elapsed)) / 1000

/-- Line 721: `capture_point = capture_idx - capture_size - delta_smp`,
computed in `uint32_t` arithmetic and reinterpreted as `int32_t`. -/
def visu_capture_point (s : VisuState) (clock_ok : Bool) (elapsed : Nat) : Int :=
  toInt32 (u32sub (u32sub (u32 s.capture_idx) (u32 s.capture_size))
    (u32 (visu_delta_smp s clock_ok elapsed)))

/-- The `VISUALIZER_CMD_CAPTURE` case of `visualizer_command`.  The reply
buffer is `reply` (its length models `*replySize`); `elapsed` is the
monotonic-clock time in ms since the last buffer update and `clock_ok`
models `clock_gettime` succeeding.  Returns status, updated session state,
and the reply buffer after the call. -/
def visualizer_cmd_capture (s : VisuState) (reply : List Nat)
    (clock_ok : Bool) (elapsed : Nat) : Int × VisuState × List Nat :=
  if reply.length ≠ s.capture_size then (-22, s, reply)
  else if s.offload_enabled = false then (0, s, reply)
  else if s.state = EFFECT_STATE_ACTIVE then
    let delta_ms : Nat := if s.buffer_update_set && clock_ok then u32 elapsed else 0
    let cp : Int := visu_capture_point s clock_ok elapsed
    let cs32 : Int := toInt32 (u32 s.capture_size)
    let step1 : List Nat × Nat × Int × Int :=
      if cp < 0 then
        let size : Int := if -cp > cs32 then cs32 else -cp
        (memcpyAt reply 0 (readBuf s.capture_buf (CAPTURE_BUF_SIZE + cp) size.toNat),
         size.toNat, cs32 - size, 0)
      else (reply, 0, cs32, cp)
    let reply2 := memcpyAt step1.1 step1.2.1 (readBuf s.capture_buf step1.2.2.2 step1.2.2.1.toNat)
    let stalled :=
      if s.last_capture_idx = s.capture_idx ∧ s.buffer_update_set = true ∧
          MAX_STALL_TIME_MS < delta_ms then
        (false, memsetAt reply2 step1.2.1 128 s.capture_size)
      else (s.buffer_update_set, reply2)
    (0, { s with buffer_update_set := stalled.1,
                 last_capture_idx := s.capture_idx }, stalled.2)
  else (0, s, memsetAt reply 0 128 s.capture_size)

/-! ## Output bindings (`visualizer_hal_start_output` /
`visualizer_hal_stop_output`, lines 391–475) -/

/-- An `effect_context_t` as seen by the binding registry: its identity and
the output handle it targets. -/
structure EffectCtx where
  id : Nat
  out_handle : Int

/-- An `output_context_t`: the output io handle and the ids of the effects
attached to it. -/
structure OutputCtx where
  handle : Int
  effects : List Nat

/-- The process-wide registry: `created_effects_list` and
`active_outputs_list`. -/
structure GlobalState where
  created_effects : List EffectCtx
  active_outputs : List OutputCtx

/-- `get_output`: first binding with the given handle. -/
def get_output (l : List OutputCtx) (h : Int) : Option OutputCtx :=
  l.find? fun o => o.handle == h

/-- `list_remove` of the first binding with the given handle. -/
def removeFirstOutput : List OutputCtx → Int → List OutputCtx
  | [], _ => []
  | o :: rest, h => if o.handle == h then rest else o :: removeFirstOutput rest h

/-- `visualizer_hal_start_output`.  On the already-started path returns
`-ENOSYS = -38`; on the success path the C function returns its local `ret`
*without ever assigning it*, modelled as `none` (an indeterminate value).
The capture-thread lifecycle is concurrency and is not modelled. -/
def visualizer_hal_start_output (g : GlobalState) (output : Int) :
    Option Int × GlobalState :=
  match get_output g.active_outputs output with
  | some _ => (some (-38), g)
  | none =>
    let fx := (g.created_effects.filter fun e => e.out_handle == output).map (·.id)
    (none, { g with active_outputs := g.active_outputs ++ [⟨output, fx⟩] })

/-- `visualizer_hal_stop_output`.  On the not-started path returns
`-ENOSYS = -38`; on the success path `ret` is likewise never assigned,
modelled as `none`. -/
def visualizer_hal_stop_output (g : GlobalState) (output : Int) :
    Option Int × GlobalState :=
  match get_output g.active_outputs output with
  | none => (some (-38), g)
  | some _ => (none, { g with active_outputs := removeFirstOutput g.active_outputs output })

/-! ## Reply-buffer copy lemmas -/

theorem length_readBuf (buf : Nat → Nat) (st : Int) (len : Nat) :
    (readBuf buf st len).length = len := by
  unfold readBuf
  rw [List.length_map, List.length_range]

theorem length_memcpyAt (d : List Nat) (off : Nat) (src : List Nat) :
    (memcpyAt d off src).length = d.length := by
  unfold memcpyAt
  rw [List.length_map, List.length_range]

theorem length_memsetAt (d : List Nat) (off v n : Nat) :
    (memsetAt d off v n).length = d.length := by
  unfold memsetAt
  rw [List.length_map, List.length_range]

theorem getElem_memcpyAt (d : List Nat) (off : Nat) (src : List Nat) (i : Nat)
    (hi : i < (memcpyAt d off src).length) :
    (memcpyAt d off src)[i] =
      if off ≤ i ∧ i < off + src.length then src.getD (i - off) 0 else d.getD i 0 := by
  unfold memcpyAt at hi ⊢
  simp only [List.getElem_map, List.getElem_range]

theorem getElem_memsetAt (d : List Nat) (off v n : Nat) (i : Nat)
    (hi : i < (memsetAt d off v n).length) :
    (memsetAt d off v n)[i] =
      if off ≤ i ∧ i < off + n then v else d.getD i 0 := by
  unfold memsetAt at hi ⊢
  simp only [List.getElem_map, List.getElem_range]

theorem memcpyAt_full (d s : List Nat) (h : s.length = d.length) :
    memcpyAt d 0 s = s := by
  apply List.ext_getElem (by rw [length_memcpyAt]; exact h.symm)
  intro i h1 h2
  rw [getElem_memcpyAt d 0 s i h1]
  rw [if_pos ⟨Nat.zero_le _, by omega⟩]
  rw [Nat.sub_zero, List.getD_eq_getElem _ _ h2]

theorem memcpyAt_two (d a b : List Nat) (h : a.length + b.length = d.length) :
    memcpyAt (memcpyAt d 0 a) a.length b = a ++ b := by
  apply List.ext_getElem (by rw [length_memcpyAt, length_memcpyAt, List.length_append]; omega)
  intro i h1 h2
  rw [List.length_append] at h2
  rw [getElem_memcpyAt _ _ _ _ h1]
  by_cases hi : a.length ≤ i
  · rw [if_pos ⟨hi, by omega⟩]
    rw [List.getElem_append_right (by omega)]
    rw [List.getD_eq_getElem _ _ (by omega)]
  · rw [if_neg (by omega)]
    rw [List.getD_eq_getElem _ _ (by rw [length_memcpyAt]; omega)]
    rw [getElem_memcpyAt _ _ _ _ (by rw [length_memcpyAt]; omega)]
    rw [if_pos ⟨Nat.zero_le _, by omega⟩, Nat.sub_zero]
    rw [List.getElem_append_left (by omega)]
    rw [List.getD_eq_getElem _ _ (by omega)]

theorem memsetAt_full (d : List Nat) (v n : Nat) (h : d.length ≤ n) :
    memsetAt d 0 v n = List.replicate d.length v := by
  apply List.ext_getElem (by rw [length_memsetAt, List.length_replicate])
  intro i h1 h2
  rw [getElem_memsetAt _ _ _ _ _ h1]
  rw [length_memsetAt] at h1
  rw [if_pos ⟨Nat.zero_le _, by omega⟩, List.getElem_replicate]

/-! ## Claim C5: process updates the buffer even when not Active -/

/-- Claim C5: for every valid input block, `visualizer_process` on a session
that exists (is registered) but is not Active still performs the full
ring-buffer update (per-frame left+right sum, arithmetic shift, byte
truncation, XOR `0x80`, cursor advance with wrap) and updates the
last-update timestamp, and only then returns the no-data status `-ENODATA`;
the buffer update is unconditional, the Active check gates only the return
status. -/
theorem c5_inactive_process_still_writes (s : VisuState) (ib ob : AudioBuffer)
    (ck : Bool) (hfc : ib.frameCount = ob.frameCount) (hnz : ib.frameCount ≠ 0)
    (hst : s.state ≠ EFFECT_STATE_ACTIVE) :
    visualizer_process true s (some ib) (some ob) ck =
      (-61, { s with
        capture_buf := (writeFrames (fun i => ib.s16.getD i 0)
          (computeShift s.scaling_mode (blockSamples ib)).toNat
          s.capture_buf s.capture_idx 0 ib.frameCount).1,
        capture_idx := (writeFrames (fun i => ib.s16.getD i 0)
          (computeShift s.scaling_mode (blockSamples ib)).toNat
          s.capture_buf s.capture_idx 0 ib.frameCount).2,
        buffer_update_set := ck }) := by
  unfold visualizer_process
  rw [if_neg (by simp)]
  dsimp only
  rw [if_neg (by push_neg; exact ⟨by rw [hfc], hnz⟩)]
  rw [if_pos hst]

/-- Witness for C5 at a concrete inactive session and block. -/
theorem c5_witness :
    visualizer_process true ⟨1, true, 48000, 7, 1024, 0, 0, 0, false, fun _ => 128⟩
      (some ⟨1, [3, 5]⟩) (some ⟨1, [3, 5]⟩) true =
      (-61, { (⟨1, true, 48000, 7, 1024, 0, 0, 0, false, fun _ => 128⟩ : VisuState) with
        capture_buf := (writeFrames (fun i => ([3, 5] : List Int).getD i 0)
          (computeShift 0 (blockSamples ⟨1, [3, 5]⟩)).toNat (fun _ => 128) 7 0 1).1,
        capture_idx := (writeFrames (fun i => ([3, 5] : List Int).getD i 0)
          (computeShift 0 (blockSamples ⟨1, [3, 5]⟩)).toNat (fun _ => 128) 7 0 1).2,
        buffer_update_set := true }) :=
  c5_inactive_process_still_writes _ _ _ _ rfl (by decide) (by decide)

/-! ## Claim C10: invalid process arguments leave the session untouched -/

/-- Claim C10: a `visualizer_process` call whose context is not registered,
or whose input or output buffer is null, or whose frame counts differ, or
whose frame count is zero, returns `-EINVAL` and leaves the session state
entirely unchanged. -/
theorem c10_invalid_args_no_effect (registered : Bool) (s : VisuState)
    (inB outB : Option AudioBuffer) (ck : Bool)
    (h : registered = false ∨ inB = none ∨ outB = none ∨
      ∀ ib ob, inB = some ib → outB = some ob →
        ib.frameCount ≠ ob.frameCount ∨ ib.frameCount = 0) :
    visualizer_process registered s inB outB ck = (-22, s) := by
  unfold visualizer_process
  rcases h with h | h | h | h
  · rw [if_pos h]
  · subst h
    by_cases hr : registered = false
    · rw [if_pos hr]
    · rw [if_neg hr]
  · subst h
    by_cases hr : registered = false
    · rw [if_pos hr]
    · rw [if_neg hr]
      cases inB <;> rfl
  · by_cases hr : registered = false
    · rw [if_pos hr]
    · rw [if_neg hr]
      cases inB with
      | none => rfl
      | some ib =>
        cases outB with
        | none => rfl
        | some ob =>
          dsimp only
          rw [if_pos (h ib ob rfl rfl)]

/-- Witness for C10: an unregistered context with mismatched frame counts. -/
theorem c10_witness :
    visualizer_process false ⟨2, true, 48000, 7, 1024, 0, 0, 0, true, fun _ => 128⟩
      (some ⟨1, [3, 5]⟩) (some ⟨2, [3, 5, 0, 0]⟩) true =
      (-22, ⟨2, true, 48000, 7, 1024, 0, 0, 0, true, fun _ => 128⟩) :=
  c10_invalid_args_no_effect _ _ _ _ _ (Or.inl rfl)

/-! ## Claim C9: the latency parameter is accepted but ignored -/

/-- Claim C9: a well-formed `set_parameter` call naming the latency
parameter returns success and leaves the whole session state unchanged. -/
theorem c9_latency_param_noop (s : VisuState) (p : EffectParam)
    (hp : p.psize = 4) (hv : p.vsize = 4)
    (hid : p.paramId = VISUALIZER_PARAM_LATENCY) :
    visualizer_set_parameter s p = (0, s) := by
  unfold visualizer_set_parameter
  rw [if_neg (by simp [hp, hv])]
  rw [if_neg (by simp [hid, VISUALIZER_PARAM_LATENCY, VISUALIZER_PARAM_CAPTURE_SIZE])]
  rw [if_neg (by simp [hid, VISUALIZER_PARAM_LATENCY, VISUALIZER_PARAM_SCALING_MODE])]
  rw [if_pos hid]

/-- Witness for C9 at a concrete session and latency parameter. -/
theorem c9_witness :
    visualizer_set_parameter ⟨2, true, 48000, 0, 1024, 1, 0, 0, false, fun _ => 128⟩
      ⟨4, 4, 2, 55⟩ =
      (0, ⟨2, true, 48000, 0, 1024, 1, 0, 0, false, fun _ => 128⟩) :=
  c9_latency_param_noop _ _ rfl rfl rfl

/-! ## Claim C7: capture-size validation -/

/-- Counterexample for C7: a well-formed `set_parameter` call requesting a
capture window size of 65537 (> `CAPTURE_BUF_SIZE`) is accepted and stored,
not rejected. -/
theorem c7_counterexample :
    (visualizer_set_parameter ⟨1, true, 48000, 0, 1024, 0, 0, 0, false, fun _ => 128⟩
      ⟨4, 4, 0, 65537⟩).1 = 0 ∧
    (visualizer_set_parameter ⟨1, true, 48000, 0, 1024, 0, 0, 0, false, fun _ => 128⟩
      ⟨4, 4, 0, 65537⟩).2.capture_size = 65537 ∧
    ¬ (visualizer_set_parameter ⟨1, true, 48000, 0, 1024, 0, 0, 0, false, fun _ => 128⟩
      ⟨4, 4, 0, 65537⟩).2.capture_size ≤ CAPTURE_BUF_SIZE := by
  refine ⟨rfl, rfl, ?_⟩
  decide

/-- Amended C7: an accepted `set_parameter` call naming the capture-size
parameter stores the requested value unconditionally; no comparison against
the buffer capacity is performed at configuration time. -/
theorem c7_amended_stores_unvalidated (s : VisuState) (p : EffectParam)
    (hp : p.psize = 4) (hv : p.vsize = 4)
    (hid : p.paramId = VISUALIZER_PARAM_CAPTURE_SIZE) :
    visualizer_set_parameter s p = (0, { s with capture_size := p.value }) := by
  unfold visualizer_set_parameter
  rw [if_neg (by simp [hp, hv])]
  rw [if_pos hid]

/-- Witness for the amended C7. -/
theorem c7_amended_witness :
    visualizer_set_parameter ⟨1, true, 48000, 0, 1024, 0, 0, 0, false, fun _ => 128⟩
      ⟨4, 4, 0, 70000⟩ =
      (0, { (⟨1, true, 48000, 0, 1024, 0, 0, 0, false, fun _ => 128⟩ : VisuState) with
            capture_size := 70000 }) :=
  c7_amended_stores_unvalidated _ _ rfl rfl rfl

/-! ## Claim C6: snapshot on a non-Active session -/

/-- Counterexample for C6: on a session that is not Active but has offload
*disabled*, `VISUALIZER_CMD_CAPTURE` returns success yet does not touch the
reply buffer at all (the non-offload path must not overwrite the reply), so
the output is not filled with 0x80. -/
theorem c6_counterexample :
    (visualizer_cmd_capture ⟨1, false, 48000, 0, 1, 0, 0, 0, false, fun _ => 128⟩
      [5] true 0).1 = 0 ∧
    ¬ (visualizer_cmd_capture ⟨1, false, 48000, 0, 1, 0, 0, 0, false, fun _ => 128⟩
      [5] true 0).2.2 = List.replicate 1 128 := by
  refine ⟨rfl, ?_⟩
  decide

/-- Amended C6: for every session *with offload enabled* that is not
Active, `capture_snapshot` with an output buffer of the configured capture
window size fills the entire output buffer with the silence byte 0x80 and
returns success, regardless of the ring buffer's history. -/
theorem c6_amended_inactive_silence (s : VisuState) (reply : List Nat)
    (ck : Bool) (e : Nat) (hoff : s.offload_enabled = true)
    (hst : s.state ≠ EFFECT_STATE_ACTIVE)
    (hlen : reply.length = s.capture_size) :
    visualizer_cmd_capture s reply ck e = (0, s, List.replicate s.capture_size 128) := by
  unfold visualizer_cmd_capture
  rw [if_neg (by omega)]
  rw [if_neg (by simp [hoff])]
  rw [if_neg hst]
  rw [memsetAt_full _ _ _ (le_of_eq hlen), hlen]

/-- Witness for the amended C6. -/
theorem c6_amended_witness :
    visualizer_cmd_capture ⟨1, true, 48000, 500, 2, 0, 3, 0, true, fun j => j % 251⟩
      [7, 7] true 0 =
      (0, ⟨1, true, 48000, 500, 2, 0, 3, 0, true, fun j => j % 251⟩,
       List.replicate 2 128) :=
  c6_amended_inactive_silence _ _ _ _ rfl (by decide) rfl

/-! ## Claim C8: bind/unbind output -/

/-- Claim C8 evaluated on the code: the second `bind_output(5)` and the
second `unbind_output(5)` fail with `-ENOSYS`, as claimed; but on each
*success* path the C function returns its local `ret` without ever
assigning it (modelled as `none`, an indeterminate value), so "returns
success" does not hold of the code. -/
theorem c8_bind_unbind_eval :
    ((visualizer_hal_start_output ⟨[], []⟩ 5).1 = none) ∧
    ((visualizer_hal_start_output (visualizer_hal_start_output ⟨[], []⟩ 5).2 5).1 =
      some (-38)) ∧
    ((visualizer_hal_stop_output (visualizer_hal_start_output ⟨[], []⟩ 5).2 5).1 = none) ∧
    ((visualizer_hal_stop_output
        (visualizer_hal_stop_output (visualizer_hal_start_output ⟨[], []⟩ 5).2 5).2 5).1 =
      some (-38)) := by
  refine ⟨rfl, ?_, rfl, ?_⟩ <;> decide

/-! ## Gain-estimator lemmas -/

theorem bitLenAux_mono (fuel : Nat) : ∀ {n m : Nat}, n ≤ m →
    bitLenAux fuel n ≤ bitLenAux fuel m := by
  induction fuel with
  | zero => intro n m _; exact Nat.le_refl _
  | succ f ih =>
    intro n m h
    unfold bitLenAux
    by_cases hn : n = 0
    · rw [if_pos hn]; exact Nat.zero_le _
    · rw [if_neg hn, if_neg (by omega)]
      exact Nat.succ_le_succ (ih (Nat.div_le_div_right h))

theorem clz32_anti {n m : Nat} (h : n ≤ m) : clz32 m ≤ clz32 n :=
  Nat.sub_le_sub_left (bitLenAux_mono 32 h) 32

theorem clz32_le_32 (n : Nat) : clz32 n ≤ 32 := Nat.sub_le _ _

theorem foldl_min_le_init (g : Int → Nat) :
    ∀ (l : List Int) (acc : Nat), l.foldl (fun a t => min a (g t)) acc ≤ acc := by
  intro l
  induction l with
  | nil => intro acc; exact Nat.le_refl _
  | cons x xs ih =>
    intro acc
    rw [List.foldl_cons]
    exact le_trans (ih (min acc (g x))) (min_le_left _ _)

theorem foldl_min_le_mem (g : Int → Nat) :
    ∀ (l : List Int) (acc : Nat) {s : Int}, s ∈ l →
      l.foldl (fun a t => min a (g t)) acc ≤ g s := by
  intro l
  induction l with
  | nil => intro acc s hs; cases hs
  | cons x xs ih =>
    intro acc s hs
    rw [List.foldl_cons]
    rcases List.mem_cons.1 hs with h | h
    · subst h
      exact le_trans (foldl_min_le_init g xs (min acc (g s))) (min_le_right _ _)
    · exact ih _ h

theorem le_foldl_min (g : Int → Nat) :
    ∀ (l : List Int) (acc c : Nat), c ≤ acc → (∀ s ∈ l, c ≤ g s) →
      c ≤ l.foldl (fun a t => min a (g t)) acc := by
  intro l
  induction l with
  | nil => intro acc c hacc _; exact hacc
  | cons x xs ih =>
    intro acc c hacc h
    rw [List.foldl_cons]
    exact ih _ _ (le_min hacc (h x (List.mem_cons_self x xs)))
      fun s hs => h s (List.mem_cons_of_mem x hs)

theorem minClz_le_mem {l : List Int} {s : Int} (hs : s ∈ l) :
    minClz l ≤ clzOfSample s :=
  foldl_min_le_mem clzOfSample l 32 hs

theorem le_minClz {l : List Int} {c : Nat} (hc : c ≤ 32)
    (h : ∀ s ∈ l, c ≤ clzOfSample s) : c ≤ minClz l :=
  le_foldl_min clzOfSample l 32 c hc h

/-! ## Peak-amplitude lemmas -/

theorem peakAbs_nonneg (l : List Int) : 0 ≤ peakAbs l := by
  induction l with
  | nil => exact le_refl 0
  | cons x xs ih => exact le_trans ih (le_max_right _ _)

theorem abs_le_peakAbs {l : List Int} {s : Int} (h : s ∈ l) : |s| ≤ peakAbs l := by
  induction l with
  | nil => cases h
  | cons x xs ih =>
    rcases List.mem_cons.1 h with h1 | h1
    · subst h1; exact le_max_left _ _
    · exact le_trans (ih h1) (le_max_right _ _)

theorem peakAbs_attained (l : List Int) (hpos : 0 < peakAbs l) :
    ∃ s ∈ l, peakAbs l = |s| := by
  induction l with
  | nil => exact absurd hpos (by simp [peakAbs])
  | cons x xs ih =>
    rcases le_total (peakAbs xs) |x| with h | h
    · exact ⟨x, List.mem_cons_self x xs, max_eq_left h⟩
    · have hmax : peakAbs (x :: xs) = peakAbs xs := max_eq_right h
      rw [hmax] at hpos ⊢
      obtain ⟨s, hm, he⟩ := ih hpos
      exact ⟨s, List.mem_cons_of_mem x hm, he⟩

theorem sampleAbs_le_abs (s : Int) : sampleAbs s ≤ |s| := by
  unfold sampleAbs
  rcases lt_or_le s 0 with h | h
  · rw [if_pos h, abs_of_neg h]; omega
  · rw [if_neg (not_lt.2 h), abs_of_nonneg h]

theorem abs_le_sampleAbs_add_one (s : Int) : |s| ≤ sampleAbs s + 1 := by
  unfold sampleAbs
  rcases lt_or_le s 0 with h | h
  · rw [if_pos h, abs_of_neg h]; omega
  · rw [if_neg (not_lt.2 h), abs_of_nonneg h]; omega

/-- Zeta-reduced form of `normalizedShift`. -/
theorem normalizedShift_eq (l : List Int) :
    normalizedShift l =
      (if (25 - (minClz l : Int)) < 3 then 3 else 25 - (minClz l : Int)) + 1 := rfl

/-! ## Claim C3: gain monotonicity in the peak amplitude -/

/-- Counterexample for C3: the block `[1, 1]` has *smaller* peak amplitude
than `[32767, 32767]` but yields shift 4, *less* than the shift 9 of the
larger-peak block — the claimed direction (smaller peak ⇒ shift ≥) is
backwards. -/
theorem c3_counterexample :
    peakAbs [1, 1] < peakAbs [32767, 32767] ∧
    ¬ computeShift VISUALIZER_SCALING_MODE_NORMALIZED [32767, 32767] ≤
      computeShift VISUALIZER_SCALING_MODE_NORMALIZED [1, 1] := by
  constructor
  · decide
  · decide

/-- Amended C3: in Normalized mode, a block with *strictly smaller* peak
amplitude yields a computed shift *less than or equal to* the shift of the
larger-peak block (quieter input is amplified more, i.e. divided less);
AsPlayed yields exactly 9 for every block. -/
theorem c3_amended_shift_mono (a b c : List Int)
    (hpeak : peakAbs a < peakAbs b) :
    computeShift VISUALIZER_SCALING_MODE_NORMALIZED a ≤
      computeShift VISUALIZER_SCALING_MODE_NORMALIZED b ∧
    computeShift VISUALIZER_SCALING_MODE_AS_PLAYED c = 9 := by
  constructor
  · have hbpos : 0 < peakAbs b := lt_of_le_of_lt (peakAbs_nonneg a) hpeak
    obtain ⟨t, ht, hteq⟩ := peakAbs_attained b hbpos
    have hmono : minClz b ≤ minClz a := by
      refine le_trans (minClz_le_mem ht) (le_minClz (clz32_le_32 _) ?_)
      intro s hs
      refine clz32_anti (Int.toNat_le_toNat ?_)
      have h1 : sampleAbs s ≤ |s| := sampleAbs_le_abs s
      have h2 : |s| ≤ peakAbs a := abs_le_peakAbs hs
      have h3 : |t| ≤ sampleAbs t + 1 := abs_le_sampleAbs_add_one t
      omega
    unfold computeShift
    rw [if_pos rfl, if_pos rfl]
    rw [normalizedShift_eq, normalizedShift_eq]
    split_ifs <;> omega
  · unfold computeShift
    rw [if_neg (by decide)]

/-- Witness for the amended C3 at concrete blocks. -/
theorem c3_amended_witness :
    computeShift VISUALIZER_SCALING_MODE_NORMALIZED [1, 1] ≤
      computeShift VISUALIZER_SCALING_MODE_NORMALIZED [32767, 32767] ∧
    computeShift VISUALIZER_SCALING_MODE_AS_PLAYED [0, 0] = 9 :=
  c3_amended_shift_mono [1, 1] [32767, 32767] [0, 0] (by decide)

/-! ## Claim C4: reference definition of the normalized shift -/

/-- The claim's absolute value: `abs(sample)` with only `-32768` mapped to
`32767`. -/
def claimAbs (s : Int) : Nat := if s = -32768 then 32767 else s.natAbs

/-- The claim's reference shift: 25 minus the minimum leading-zero count of
`claimAbs` over all interleaved samples, clamped to a lower bound of 3,
plus 1. -/
def claimRefShift (l : List Int) : Int :=
  max (25 - (((l.map fun s => clz32 (claimAbs s)).foldr min 32 : Nat) : Int)) 3 + 1

/-- Counterexample for C4: for the one-frame block `(-16384, 0)` the code
computes shift 8 (it takes the leading zeros of `-smp - 1 = 16383` for
*every* negative sample), while the claim's reference — leading zeros of
`abs(sample) = 16384`, with only `-32768` special-cased — gives 9. -/
theorem c4_counterexample :
    ¬ computeShift VISUALIZER_SCALING_MODE_NORMALIZED [-16384, 0] =
      claimRefShift [-16384, 0] := by
  decide

/-- The amended claim's per-sample leading-zero count: for a negative
sample the leading-zero count of `-sample - 1` (i.e. `abs(sample) - 1`),
otherwise of the sample itself. -/
def negAdjClz (s : Int) : Nat := clz32 (if s < 0 then (-s - 1).toNat else s.toNat)

/-- The amended claim's reference shift. -/
def shiftSpecAmended (l : List Int) : Int :=
  max (25 - (((l.map negAdjClz).foldr min 32 : Nat) : Int)) 3 + 1

theorem clzOfSample_eq_negAdjClz (s : Int) : clzOfSample s = negAdjClz s := by
  unfold clzOfSample negAdjClz sampleAbs
  rw [apply_ite Int.toNat]

theorem foldr_min_min (L : List Nat) (a b : Nat) :
    L.foldr min (min a b) = min b (L.foldr min a) := by
  induction L with
  | nil => exact min_comm a b
  | cons c L ih => simp only [List.foldr_cons, ih]; rw [min_left_comm]

theorem foldl_min_eq_foldr (g : Int → Nat) (l : List Int) (acc : Nat) :
    l.foldl (fun a t => min a (g t)) acc = (l.map g).foldr min acc := by
  induction l generalizing acc with
  | nil => rfl
  | cons x xs ih =>
    simp only [List.foldl_cons, List.map_cons, List.foldr_cons]
    rw [ih (min acc (g x)), foldr_min_min]

/-- Amended C4: for every non-empty sample block, the Normalized-mode shift
equals the reference definition in which *every* negative sample
contributes the leading-zero count of `abs(sample) - 1` (so `-32768` maps
to `32767`, and e.g. `-16384` to `16383`); AsPlayed yields the constant
9. -/
theorem c4_amended_shift_spec (l : List Int) (hl : l ≠ []) :
    computeShift VISUALIZER_SCALING_MODE_NORMALIZED l = shiftSpecAmended l ∧
    computeShift VISUALIZER_SCALING_MODE_AS_PLAYED l = 9 := by
  constructor
  · unfold computeShift
    rw [if_pos rfl]
    rw [normalizedShift_eq]
    unfold shiftSpecAmended
    have hm : minClz l = (l.map negAdjClz).foldr min 32 := by
      unfold minClz
      rw [foldl_min_eq_foldr clzOfSample l 32]
      congr 1
      exact List.map_congr_left fun s _ => clzOfSample_eq_negAdjClz s
    rw [hm, max_def]
    split_ifs <;> omega
  · unfold computeShift
    rw [if_neg (by decide)]

/-- Witness for the amended C4 at a concrete block. -/
theorem c4_amended_witness :
    computeShift VISUALIZER_SCALING_MODE_NORMALIZED [-16384, 0] =
      shiftSpecAmended [-16384, 0] ∧
    computeShift VISUALIZER_SCALING_MODE_AS_PLAYED [-16384, 0] = 9 :=
  c4_amended_shift_spec [-16384, 0] (by decide)

/-! ## Claim-side windowing definitions (C1, C2) -/

/-- The claim's `latency_samples = sample_rate * max(0, latency_ms -
elapsed_ms) / 1000` (truncated `Nat` subtraction implements the `max 0`). -/
def latencySamplesSpec (rate lat elapsed : Nat) : Nat :=
  rate * (lat - elapsed) / 1000

/-- The claim's `capture_point = write_cursor - window_size -
latency_samples` in unbounded signed arithmetic. -/
def captureClaimPoint (cursor wsize rate lat elapsed : Nat) : Int :=
  (cursor : Int) - (wsize : Int) - (latencySamplesSpec rate lat elapsed : Int)

/-- The claim's copy rule: if `capture_point` is negative, copy
`min(-capture_point, window_size)` bytes starting at buffer offset
`capacity + capture_point`, followed by the remaining bytes from offset 0;
otherwise copy `window_size` bytes starting at offset `capture_point`. -/
def captureClaimBytes (buf : Nat → Nat) (cp : Int) (wsize : Nat) : List Nat :=
  if cp < 0 then
    readBuf buf ((CAPTURE_BUF_SIZE : Nat) + cp) (min (-cp).toNat wsize) ++
      readBuf buf 0 (wsize - min (-cp).toNat wsize)
  else readBuf buf cp wsize

/-! ## Windowing arithmetic lemmas -/

theorem latency_ms_spec (s : VisuState) (e : Nat)
    (hset : s.buffer_update_set = true) (hlat : s.latency < 2147483648)
    (he : e < 2147483648) :
    visu_latency_ms s true e = ((s.latency - e : Nat) : Int) := by
  unfold visu_latency_ms
  rw [hset]
  have h1 : toInt32 (u32 s.latency) = (s.latency : Int) := by
    rw [u32_small (by omega)]; exact toInt32_small (by omega)
  rw [h1]
  dsimp only
  rw [if_pos (show (true && true) = true from rfl), i2u32_ofNat (by omega)]
  unfold toInt32 u32sub u32
  split_ifs <;> omega

theorem delta_smp_spec (s : VisuState) (e : Nat)
    (hset : s.buffer_update_set = true) (hlat : s.latency < 2147483648)
    (he : e < 2147483648) (hsr : s.samplingRate < 4294967296)
    (hprod : s.samplingRate * s.latency < 4294967296) :
    visu_delta_smp s true e = latencySamplesSpec s.samplingRate s.latency e := by
  unfold visu_delta_smp
  rw [latency_ms_spec s e hset hlat he]
  rw [i2u32_ofNat (show s.latency - e < 4294967296 by omega)]
  rw [u32_small hsr]
  rw [u32_small (lt_of_le_of_lt (Nat.mul_le_mul_left _ (Nat.sub_le _ _)) hprod)]
  rfl

theorem latencySamplesSpec_le (rate lat e : Nat)
    (hprod : rate * lat < 4294967296) :
    latencySamplesSpec rate lat e ≤ 4294967 := by
  unfold latencySamplesSpec
  have h1 : rate * (lat - e) ≤ 4294967295 :=
    Nat.le_of_lt_succ (lt_of_le_of_lt (Nat.mul_le_mul_left _ (Nat.sub_le _ _))
      (by omega))
  calc rate * (lat - e) / 1000 ≤ 4294967295 / 1000 := Nat.div_le_div_right h1
    _ = 4294967 := by norm_num

theorem capture_point_spec (s : VisuState) (e : Nat)
    (hset : s.buffer_update_set = true) (hlat : s.latency < 2147483648)
    (he : e < 2147483648) (hsr : s.samplingRate < 4294967296)
    (hprod : s.samplingRate * s.latency < 4294967296)
    (hidx : s.capture_idx ≤ 65536) (hcs : s.capture_size ≤ 65536) :
    visu_capture_point s true e =
      captureClaimPoint s.capture_idx s.capture_size s.samplingRate s.latency e := by
  unfold visu_capture_point captureClaimPoint
  rw [delta_smp_spec s e hset hlat he hsr hprod]
  have hD := latencySamplesSpec_le s.samplingRate s.latency e hprod
  generalize latencySamplesSpec s.samplingRate s.latency e = D at hD ⊢
  unfold toInt32 u32sub u32
  split_ifs <;> omega

/-- `memcpyAt_two` with the offset given as an arbitrary expression equal to
the first copy's length. -/
theorem memcpyAt_two_off (d a b : List Nat) (off : Nat) (hoff : off = a.length)
    (h : a.length + b.length = d.length) :
    memcpyAt (memcpyAt d 0 a) off b = a ++ b := by
  rw [hoff]; exact memcpyAt_two d a b h

/-! ## Claim C1: the Active-session capture window -/

/-- Claim C1: for an Active session with offload enabled, a timestamp set
and a working clock, `capture_snapshot` with an output buffer of the
configured window size (and no stall declared) copies exactly the bytes
described by `capture_point = write_cursor - window_size - latency_samples`
with `latency_samples = sample_rate * max(0, latency_ms - elapsed_ms) /
1000`: for negative `capture_point`, `min(-capture_point, window_size)`
bytes from buffer offset `capacity + capture_point` followed by the rest
from offset 0; otherwise `window_size` bytes from offset `capture_point`.
The bound hypotheses keep the C `uint32_t`/`int32_t` arithmetic inside the
range where it coincides with the claim's signed arithmetic. -/
theorem c1_capture_window (s : VisuState) (reply : List Nat) (e : Nat)
    (hoff : s.offload_enabled = true) (hact : s.state = EFFECT_STATE_ACTIVE)
    (hlen : reply.length = s.capture_size)
    (hset : s.buffer_update_set = true)
    (hidx : s.capture_idx ≤ 65536) (hcs : s.capture_size ≤ 65536)
    (hlat : s.latency < 2147483648) (he : e < 2147483648)
    (hsr : s.samplingRate < 4294967296)
    (hprod : s.samplingRate * s.latency < 4294967296)
    (hnostall : s.last_capture_idx ≠ s.capture_idx ∨ e ≤ 1000) :
    visualizer_cmd_capture s reply true e =
      (0, { s with last_capture_idx := s.capture_idx },
       captureClaimBytes s.capture_buf
         (captureClaimPoint s.capture_idx s.capture_size s.samplingRate s.latency e)
         s.capture_size) := by
  have hcp := capture_point_spec s e hset hlat he hsr hprod hidx hcs
  have hcs32 : toInt32 (u32 s.capture_size) = (s.capture_size : Int) := by
    rw [u32_small (by omega)]; exact toInt32_small (by omega)
  unfold visualizer_cmd_capture
  rw [if_neg (by omega)]
  rw [if_neg (by simp [hoff])]
  rw [if_pos hact]
  rw [hset]
  dsimp only
  rw [hcp, hcs32]
  rw [if_pos (show (true && true) = true from rfl)]
  rw [u32_small (show e < 4294967296 by omega)]
  have hnostall2 : ¬ (s.last_capture_idx = s.capture_idx ∧ True ∧
      MAX_STALL_TIME_MS < e) := by
    rcases hnostall with h | h
    · exact fun hc => h hc.1
    · exact fun hc => absurd hc.2.2 (show ¬ (1000 < e) by omega)
  set V := captureClaimPoint s.capture_idx s.capture_size s.samplingRate s.latency e
    with hVdef
  by_cases hneg : V < 0
  · rw [if_pos hneg]
    dsimp only
    have hsize_eq : (if -V > (s.capture_size : Int) then (s.capture_size : Int)
        else -V).toNat = min (-V).toNat s.capture_size := by
      rw [Nat.min_def]; split_ifs <;> omega
    have hrem : ((s.capture_size : Int) - (if -V > (s.capture_size : Int)
        then (s.capture_size : Int) else -V)).toNat =
        s.capture_size - min (-V).toNat s.capture_size := by
      rw [Nat.min_def]; split_ifs <;> omega
    rw [hsize_eq, hrem]
    rw [memcpyAt_two_off reply _ _ _ (length_readBuf _ _ _).symm
      (by rw [length_readBuf, length_readBuf]; omega)]
    rw [if_neg (by simpa using hnostall2)]
    unfold captureClaimBytes
    rw [if_pos hneg]
  · rw [if_neg hneg]
    dsimp only
    rw [Int.toNat_ofNat]
    rw [memcpyAt_full _ _ (by rw [length_readBuf]; omega)]
    rw [if_neg (by simpa using hnostall2)]
    unfold captureClaimBytes
    rw [if_neg hneg]

/-- Witness for C1 at a concrete Active session (latency 0, elapsed 100 ms,
cursor 768, window 4). -/
theorem c1_witness :
    visualizer_cmd_capture ⟨2, true, 48000, 768, 4, 0, 0, 0, true, fun j => j % 251⟩
      [9, 9, 9, 9] true 100 =
      (0, ⟨2, true, 48000, 768, 4, 0, 768, 0, true, fun j => j % 251⟩,
       captureClaimBytes (fun j => j % 251)
         (captureClaimPoint 768 4 48000 0 100) 4) :=
  c1_capture_window _ _ _ rfl rfl rfl rfl (by decide) (by decide) (by decide)
    (by decide) (by decide) (by decide) (Or.inl (by decide))

/-- A `memset` whose offset sits at the boundary of an append: the head is
kept, the tail is overwritten. -/
theorem memsetAt_append_tail (a b : List Nat) (v n : Nat) (h : b.length ≤ n) :
    memsetAt (a ++ b) a.length v n = a ++ List.replicate b.length v := by
  apply List.ext_getElem (by
    rw [length_memsetAt, List.length_append, List.length_append,
      List.length_replicate])
  intro i h1 h2
  rw [getElem_memsetAt _ _ _ _ _ h1]
  rw [length_memsetAt, List.length_append] at h1
  by_cases hi : a.length ≤ i
  · rw [if_pos ⟨hi, by omega⟩]
    rw [List.getElem_append_right (by omega)]
    rw [List.getElem_replicate]
  · rw [if_neg (by omega)]
    rw [List.getD_eq_getElem _ _ (by rw [List.length_append]; omega)]
    rw [List.getElem_append_left (by omega)]
    rw [List.getElem_append_left (by omega)]

/-- `memsetAt_append_tail` with the offset given as an arbitrary expression
equal to the head's length. -/
theorem memsetAt_append_tail_off (a b : List Nat) (off v n : Nat)
    (hoff : off = a.length) (h : b.length ≤ n) :
    memsetAt (a ++ b) off v n = a ++ List.replicate b.length v := by
  rw [hoff]; exact memsetAt_append_tail a b v n h

/-! ## Claim C2: stall convergence -/

/-- Counterexample for C2: an Active, offload-enabled session whose write
cursor (768) HAS advanced since the previous snapshot (`last_capture_idx =
0`) receives no process call for 2000 ms; the next `capture_snapshot`
returns the stale buffer byte (0, not 0x80) and leaves the timestamp set —
the stall memset fires only when the cursor has not advanced since the
previous snapshot call. -/
theorem c2_counterexample :
    ¬ (((visualizer_cmd_capture
          ⟨2, true, 48000, 768, 1, 0, 0, 0, true, fun j => if j = 767 then 0 else 128⟩
          [5] true 2000).2.2 = List.replicate 1 128) ∧
       ((visualizer_cmd_capture
          ⟨2, true, 48000, 768, 1, 0, 0, 0, true, fun j => if j = 767 then 0 else 128⟩
          [5] true 2000).2.1.buffer_update_set = false)) := by
  decide

/-- Amended C2: for every Active, offload-enabled session whose write
cursor has not advanced since the previous snapshot call, whose timestamp
is set, and for which more than 1000 ms have elapsed since the last buffer
update, the next `capture_snapshot` marks the timestamp unset; the
returned window is entirely 0x80 when the computed capture point is
non-negative, while for a negative capture point the first
`min(-capture_point, window_size)` bytes hold the copied buffer tail (the
silencing `memset` starts at the already-advanced reply pointer) and the
remainder of the window is 0x80. -/
theorem c2_amended_stall_silence (s : VisuState) (reply : List Nat) (e : Nat)
    (hoff : s.offload_enabled = true) (hact : s.state = EFFECT_STATE_ACTIVE)
    (hlen : reply.length = s.capture_size)
    (hset : s.buffer_update_set = true)
    (hlast : s.last_capture_idx = s.capture_idx)
    (hstall : 1000 < e)
    (hidx : s.capture_idx ≤ 65536) (hcs : s.capture_size ≤ 65536)
    (hlat : s.latency < 2147483648) (he : e < 2147483648)
    (hsr : s.samplingRate < 4294967296)
    (hprod : s.samplingRate * s.latency < 4294967296) :
    visualizer_cmd_capture s reply true e =
      (0, { s with buffer_update_set := false,
                   last_capture_idx := s.capture_idx },
       if captureClaimPoint s.capture_idx s.capture_size s.samplingRate
            s.latency e < 0 then
         readBuf s.capture_buf ((CAPTURE_BUF_SIZE : Nat) +
             captureClaimPoint s.capture_idx s.capture_size s.samplingRate
               s.latency e)
           (min (-(captureClaimPoint s.capture_idx s.capture_size
             s.samplingRate s.latency e)).toNat s.capture_size) ++
           List.replicate (s.capture_size -
             min (-(captureClaimPoint s.capture_idx s.capture_size
               s.samplingRate s.latency e)).toNat s.capture_size) 128
       else List.replicate s.capture_size 128) := by
  have hcpspec := capture_point_spec s e hset hlat he hsr hprod hidx hcs
  have hcs32 : toInt32 (u32 s.capture_size) = (s.capture_size : Int) := by
    rw [u32_small (by omega)]; exact toInt32_small (by omega)
  unfold visualizer_cmd_capture
  rw [if_neg (by omega)]
  rw [if_neg (by simp [hoff])]
  rw [if_pos hact]
  rw [hset]
  dsimp only
  rw [hcpspec, hcs32]
  rw [if_pos (show (true && true) = true from rfl)]
  rw [u32_small (show e < 4294967296 by omega)]
  set V := captureClaimPoint s.capture_idx s.capture_size s.samplingRate s.latency e
    with hVdef
  by_cases hneg : V < 0
  · rw [if_pos hneg, if_pos hneg]
    dsimp only
    have hsize_eq : (if -V > (s.capture_size : Int) then (s.capture_size : Int)
        else -V).toNat = min (-V).toNat s.capture_size := by
      rw [Nat.min_def]; split_ifs <;> omega
    have hrem : ((s.capture_size : Int) - (if -V > (s.capture_size : Int)
        then (s.capture_size : Int) else -V)).toNat =
        s.capture_size - min (-V).toNat s.capture_size := by
      rw [Nat.min_def]; split_ifs <;> omega
    rw [hsize_eq, hrem]
    rw [memcpyAt_two_off reply _ _ _ (length_readBuf _ _ _).symm
      (by rw [length_readBuf, length_readBuf]; omega)]
    rw [if_pos ⟨hlast, rfl, show MAX_STALL_TIME_MS < e from hstall⟩]
    rw [memsetAt_append_tail_off _ _ _ _ _ (length_readBuf _ _ _).symm
      (by rw [length_readBuf]; omega)]
    rw [length_readBuf]
  · rw [if_neg hneg, if_neg hneg]
    dsimp only
    rw [Int.toNat_ofNat]
    rw [memcpyAt_full _ _ (by rw [length_readBuf]; omega)]
    rw [if_pos ⟨hlast, rfl, show MAX_STALL_TIME_MS < e from hstall⟩]
    rw [memsetAt_full _ _ _ (by rw [length_readBuf])]
    rw [length_readBuf]

/-- Witness for the amended C2 at a concrete stalled session whose capture
point is negative (`capture_idx = 100 < capture_size = 1024`). -/
theorem c2_amended_witness :
    visualizer_cmd_capture ⟨2, true, 48000, 100, 1024, 0, 100, 0, true, fun j => j % 251⟩
      (List.replicate 1024 9) true 2000 =
      (0, ⟨2, true, 48000, 100, 1024, 0, 100, 0, false, fun j => j % 251⟩,
       if captureClaimPoint 100 1024 48000 0 2000 < 0 then
         readBuf (fun j => j % 251) ((CAPTURE_BUF_SIZE : Nat) +
             captureClaimPoint 100 1024 48000 0 2000)
           (min (-(captureClaimPoint 100 1024 48000 0 2000)).toNat 1024) ++
           List.replicate (1024 -
             min (-(captureClaimPoint 100 1024 48000 0 2000)).toNat 1024) 128
       else List.replicate 1024 128) :=
  c2_amended_stall_silence _ _ _ rfl rfl (by rw [List.length_replicate]) rfl rfl (by decide)
    (by decide) (by decide) (by decide) (by decide) (by decide) (by decide)

end OffloadVisualizer
